import Mathlib

/-!
Shallow embedding of the spam-protection subsystem of YTGrab's
`src/server.js`: the `clickTracker` / `blockedIPs` maps, the
`spamProtection` middleware, the `cleanupTracker` janitor, the
`/api/status` endpoint and the admin endpoints
(`/api/admin/unblock`, `/api/admin/block`, `/api/admin/clear-blocks`,
`/api/admin/blocked`).

JavaScript `Map`s are modelled as association lists whose keys are
unique in every state the server can reach (`keysNodup`); timestamps
are integers (milliseconds since the epoch, like `Date.now()`).
-/

namespace YTGrab

abbrev ClientKey := String

/-- A `clickTracker` value: `{ clicks: number, firstClick: timestamp }`
(server.js line 26). -/
structure WindowEntry where
  clicks : Nat
  firstClick : Int
  deriving Repr, DecidableEq

/-- `Map.prototype.get`: the value stored at `k`, if any. -/
def mapGet {α : Type} : List (ClientKey × α) → ClientKey → Option α
  | [], _ => none
  | (k', v) :: rest, k => if k' = k then some v else mapGet rest k

/-- `Map.prototype.set`: overwrite the entry at `k` in place, or append a
new entry when `k` is absent. -/
def mapSet {α : Type} : List (ClientKey × α) → ClientKey → α → List (ClientKey × α)
  | [], k, v => [(k, v)]
  | (k', v') :: rest, k, v =>
    if k' = k then (k, v) :: rest else (k', v') :: mapSet rest k v

/-- `Map.prototype.delete`: remove the entry at `k` (a JS map holds at
most one entry per key). -/
def mapDelete {α : Type} : List (ClientKey × α) → ClientKey → List (ClientKey × α)
  | [], _ => []
  | (k', v') :: rest, k => if k' = k then rest else (k', v') :: mapDelete rest k

/-- The association list has pairwise-distinct keys, as a JS `Map` does. -/
def keysNodup {α : Type} (m : List (ClientKey × α)) : Prop :=
  (m.map Prod.fst).Nodup

/-- `SPAM_CONFIG` (server.js lines 30-35). -/
structure SpamConfig where
  maxClicks : Nat
  timeWindow : Int
  blockDuration : Int
  deriving Repr, DecidableEq

/-- The concrete configuration: 10 clicks, 60 s window, 1 h block. -/
def SPAM_CONFIG : SpamConfig := ⟨10, 60000, 3600000⟩

/-- The shared in-memory state: `clickTracker` (IP → WindowEntry) and
`blockedIPs` (IP → unblockTime), server.js lines 26-27. -/
structure SpamState where
  clickTracker : List (ClientKey × WindowEntry)
  blockedIPs : List (ClientKey × Int)
  deriving Repr, DecidableEq

def emptyState : SpamState := ⟨[], []⟩

/-- Outcome of one `spamProtection` middleware call: `next` when the
request is let through, `reject blockedUntil remainingMinutes` when a
429 response is sent. -/
inductive CheckResult where
  | next : CheckResult
  | reject (blockedUntil : Int) (remainingMinutes : Int) : CheckResult
  deriving Repr, DecidableEq

def CheckResult.allowed : CheckResult → Bool
  | .next => true
  | .reject _ _ => false

/-- `Math.ceil(remaining / 60000)` on integer input (server.js line 76):
for a positive divisor, the ceiling of `a / b` is `(a + b - 1)` under
floor division, which is what `Int.ediv` computes for `b > 0`. -/
def ceilMinutes (remaining : Int) : Int := (remaining + 59999).ediv 60000

/-- The click-tracking half of `spamProtection` (server.js lines 89-117):
runs after the blocked-IP check has fallen through. -/
def trackClicks (cfg : SpamConfig) (s : SpamState) (ip : ClientKey) (now : Int) :
    CheckResult × SpamState :=
  match mapGet s.clickTracker ip with
  | none =>
    (CheckResult.next, { s with clickTracker := mapSet s.clickTracker ip ⟨1, now⟩ })
  | some data =>
    if now - data.firstClick > cfg.timeWindow then
      (CheckResult.next, { s with clickTracker := mapSet s.clickTracker ip ⟨1, now⟩ })
    else
      if data.clicks + 1 > cfg.maxClicks then
        (CheckResult.reject (now + cfg.blockDuration) 60,
          { clickTracker := mapDelete s.clickTracker ip,
            blockedIPs := mapSet s.blockedIPs ip (now + cfg.blockDuration) })
      else
        (CheckResult.next,
          { s with clickTracker := mapSet s.clickTracker ip ⟨data.clicks + 1, data.firstClick⟩ })

/-- The `spamProtection` middleware (server.js lines 68-118): first the
blocked-IP check (lines 72-87, with lazy expiry), then click tracking. -/
def spamProtection (cfg : SpamConfig) (s : SpamState) (ip : ClientKey) (now : Int) :
    CheckResult × SpamState :=
  match mapGet s.blockedIPs ip with
  | some unblockTime =>
    if now < unblockTime then
      (CheckResult.reject unblockTime (ceilMinutes (unblockTime - now)), s)
    else
      trackClicks cfg { s with blockedIPs := mapDelete s.blockedIPs ip } ip now
  | none => trackClicks cfg s ip now

/-- `cleanupTracker` (server.js lines 38-55): drop stale window entries
(`now - firstClick > timeWindow`) and expired blocks (`now >= unblockTime`). -/
def cleanupTracker (cfg : SpamConfig) (s : SpamState) (now : Int) : SpamState :=
  { clickTracker := s.clickTracker.filter (fun e => ! decide (now - e.2.firstClick > cfg.timeWindow)),
    blockedIPs := s.blockedIPs.filter (fun e => ! decide (now ≥ e.2)) }

/-- `POST /api/admin/unblock` (server.js lines 550-568): `true` means the
200 "IP unblocked successfully" response, `false` the 404 "IP not found
in blocked list" response. -/
def adminUnblock (s : SpamState) (ip : ClientKey) : Bool × SpamState :=
  match mapGet s.blockedIPs ip with
  | some _ => (true, { s with blockedIPs := mapDelete s.blockedIPs ip })
  | none => (false, s)

/-- `POST /api/admin/block` (server.js lines 598-618):
`blockedIPs.set(ip, Date.now() + duration * 60 * 1000)`.  Note: it does
not touch `clickTracker`. -/
def adminBlock (s : SpamState) (ip : ClientKey) (durationMinutes : Int) (now : Int) :
    SpamState :=
  { s with blockedIPs := mapSet s.blockedIPs ip (now + durationMinutes * 60 * 1000) }

/-- `POST /api/admin/clear-blocks` (server.js lines 620-629): returns the
count cleared (`blockedIPs.size`) and empties `blockedIPs`. -/
def clearBlocks (s : SpamState) : Nat × SpamState :=
  (s.blockedIPs.length, { s with blockedIPs := [] })

/-- One row of the `GET /api/admin/blocked` response (server.js 530-548). -/
structure BlockedInfo where
  ip : ClientKey
  unblockTime : Int
  remainingMinutes : Int
  deriving Repr, DecidableEq

/-- Insertion sort ascending by `unblockTime`, modelling
`blocked.sort((a, b) => new Date(a.unblockTime) - new Date(b.unblockTime))`. -/
def insertByUnblock (x : BlockedInfo) : List BlockedInfo → List BlockedInfo
  | [] => [x]
  | y :: ys =>
    if x.unblockTime ≤ y.unblockTime then x :: y :: ys else y :: insertByUnblock x ys

def sortByUnblock : List BlockedInfo → List BlockedInfo
  | [] => []
  | x :: xs => insertByUnblock x (sortByUnblock xs)

/-- `GET /api/admin/blocked` (server.js lines 530-548). -/
def listBlocked (s : SpamState) (now : Int) : List BlockedInfo :=
  sortByUnblock (s.blockedIPs.map (fun e => ⟨e.1, e.2, ceilMinutes (e.2 - now)⟩))

/-- The body of the `GET /api/status` response that depends on the spam
state (server.js lines 439-452). -/
structure StatusResult where
  isBlocked : Bool
  blockedUntil : Option Int
  clicksInWindow : Nat
  deriving Repr, DecidableEq

/-- `GET /api/status` (server.js lines 439-452): `isBlocked` is decided
by `blockedIPs.has(ip)` alone; `blockedUntil` is reported iff blocked. -/
def apiStatus (s : SpamState) (ip : ClientKey) : StatusResult :=
  { isBlocked := (mapGet s.blockedIPs ip).isSome,
    blockedUntil := if (mapGet s.blockedIPs ip).isSome then mapGet s.blockedIPs ip else none,
    clicksInWindow :=
      match mapGet s.clickTracker ip with
      | some data => data.clicks
      | none => 0 }

/-- The operations that mutate the shared state. -/
inductive Op where
  | check (ip : ClientKey) (now : Int) : Op
  | adminBlockOp (ip : ClientKey) (durationMinutes : Int) (now : Int) : Op
  | adminUnblockOp (ip : ClientKey) : Op
  | clearAllOp : Op
  | janitor (now : Int) : Op

def applyOp (cfg : SpamConfig) (s : SpamState) : Op → SpamState
  | .check ip now => (spamProtection cfg s ip now).2
  | .adminBlockOp ip d now => adminBlock s ip d now
  | .adminUnblockOp ip => (adminUnblock s ip).2
  | .clearAllOp => (clearBlocks s).2
  | .janitor now => cleanupTracker cfg s now

/-- Run a sequence of operations from the initial (empty) state. -/
def exec (cfg : SpamConfig) (ops : List Op) : SpamState :=
  ops.foldl (applyOp cfg) emptyState

def Op.isAdminBlock : Op → Bool
  | .adminBlockOp _ _ _ => true
  | _ => false

/-- Run `spamProtection` on a list of request times, collecting each
request's outcome and threading the state. -/
def runChecks (cfg : SpamConfig) (s : SpamState) (ip : ClientKey) :
    List Int → List CheckResult × SpamState
  | [] => ([], s)
  | t :: ts =>
    let r := spamProtection cfg s ip t
    let rest := runChecks cfg r.2 ip ts
    (r.1 :: rest.1, rest.2)

/-- Both maps have JS-`Map` key uniqueness. -/
def WF (s : SpamState) : Prop :=
  keysNodup s.clickTracker ∧ keysNodup s.blockedIPs

/-- The §3 invariant: no key has both a WindowEntry and a BlockEntry. -/
def ExclusiveEntries (s : SpamState) : Prop :=
  ∀ ip, ¬((mapGet s.clickTracker ip).isSome = true ∧ (mapGet s.blockedIPs ip).isSome = true)

/-! ### Association-list lemmas -/

theorem mapGet_mapSet_self {α : Type} (m : List (ClientKey × α)) (k : ClientKey) (v : α) :
    mapGet (mapSet m k v) k = some v := by
  induction m with
  | nil => simp [mapSet, mapGet]
  | cons p rest ih =>
    obtain ⟨k', v'⟩ := p
    by_cases h : k' = k
    · simp [mapSet, h, mapGet]
    · simp [mapSet, h, mapGet, ih]

theorem mapGet_mapSet_ne {α : Type} (m : List (ClientKey × α)) (k k' : ClientKey) (v : α)
    (h : k' ≠ k) : mapGet (mapSet m k v) k' = mapGet m k' := by
  induction m with
  | nil => simp [mapSet, mapGet, Ne.symm h]
  | cons p rest ih =>
    obtain ⟨k'', v''⟩ := p
    by_cases h2 : k'' = k
    · subst h2; simp [mapSet, mapGet, Ne.symm h]
    · simp [mapSet, h2, mapGet, ih]

theorem mapGet_eq_none_iff {α : Type} (m : List (ClientKey × α)) (k : ClientKey) :
    mapGet m k = none ↔ k ∉ m.map Prod.fst := by
  induction m with
  | nil => simp [mapGet]
  | cons p rest ih =>
    obtain ⟨k', v'⟩ := p
    by_cases h : k' = k
    · subst h; simp [mapGet]
    · simp [mapGet, h, ih, Ne.symm h]

theorem isSome_mapGet_iff_mem {α : Type} (m : List (ClientKey × α)) (k : ClientKey) :
    (mapGet m k).isSome = true ↔ k ∈ m.map Prod.fst := by
  rcases hg : mapGet m k with _ | v
  · simp [(mapGet_eq_none_iff m k).mp hg]
  · simp only [Option.isSome_some, true_iff]
    by_contra hmem
    rw [(mapGet_eq_none_iff m k).mpr hmem] at hg
    exact Option.noConfusion hg

theorem mapGet_mapDelete_self {α : Type} (m : List (ClientKey × α)) (k : ClientKey)
    (h : keysNodup m) : mapGet (mapDelete m k) k = none := by
  induction m with
  | nil => simp [mapDelete, mapGet]
  | cons p rest ih =>
    obtain ⟨k', v'⟩ := p
    simp only [keysNodup, List.map_cons, List.nodup_cons] at h
    by_cases h2 : k' = k
    · subst h2
      simp only [mapDelete, if_pos rfl]
      exact (mapGet_eq_none_iff rest k').mpr h.1
    · simp only [mapDelete, if_neg h2, mapGet, if_neg h2]
      exact ih h.2

theorem mapGet_mapDelete_ne {α : Type} (m : List (ClientKey × α)) (k k' : ClientKey)
    (h : k' ≠ k) : mapGet (mapDelete m k) k' = mapGet m k' := by
  induction m with
  | nil => simp [mapDelete]
  | cons p rest ih =>
    obtain ⟨k'', v''⟩ := p
    by_cases h2 : k'' = k
    · subst h2; simp [mapDelete, mapGet, Ne.symm h]
    · by_cases h3 : k'' = k'
      · subst h3; simp [mapDelete, h2, mapGet]
      · simp [mapDelete, h2, mapGet, h3, ih]

theorem mem_keys_mapSet {α : Type} (m : List (ClientKey × α)) (k : ClientKey) (v : α)
    (x : ClientKey) :
    x ∈ (mapSet m k v).map Prod.fst ↔ x ∈ m.map Prod.fst ∨ x = k := by
  induction m with
  | nil => simp [mapSet]
  | cons p rest ih =>
    obtain ⟨k', v'⟩ := p
    by_cases h : k' = k
    · subst h; simp [mapSet]; tauto
    · simp [mapSet, h, ih]; tauto

theorem keysNodup_mapSet {α : Type} (m : List (ClientKey × α)) (k : ClientKey) (v : α)
    (h : keysNodup m) : keysNodup (mapSet m k v) := by
  induction m with
  | nil => simp [mapSet, keysNodup]
  | cons p rest ih =>
    obtain ⟨k', v'⟩ := p
    simp only [keysNodup, List.map_cons, List.nodup_cons] at h
    by_cases h2 : k' = k
    · subst h2
      simpa [mapSet, keysNodup] using h
    · simp only [mapSet, if_neg h2, keysNodup, List.map_cons, List.nodup_cons]
      refine ⟨fun hmem => ?_, ih h.2⟩
      rcases (mem_keys_mapSet rest k v k').mp hmem with hr | hk
      · exact h.1 hr
      · exact h2 hk

theorem mapDelete_sublist {α : Type} (m : List (ClientKey × α)) (k : ClientKey) :
    List.Sublist (mapDelete m k) m := by
  induction m with
  | nil => simp [mapDelete]
  | cons p rest ih =>
    obtain ⟨k', v'⟩ := p
    by_cases h : k' = k
    · simp only [mapDelete, if_pos h]
      exact List.sublist_cons_self _ _
    · simp only [mapDelete, if_neg h]
      exact List.Sublist.cons₂ _ ih

theorem keysNodup_mapDelete {α : Type} (m : List (ClientKey × α)) (k : ClientKey)
    (h : keysNodup m) : keysNodup (mapDelete m k) :=
  List.Nodup.sublist (List.Sublist.map Prod.fst (mapDelete_sublist m k)) h

theorem keysNodup_filter {α : Type} (m : List (ClientKey × α)) (p : ClientKey × α → Bool)
    (h : keysNodup m) : keysNodup (m.filter p) :=
  List.Nodup.sublist (List.Sublist.map Prod.fst (List.filter_sublist m)) h

theorem isSome_mapGet_of_sublist {α : Type} {m m' : List (ClientKey × α)}
    (hsub : List.Sublist m' m)
    (k : ClientKey) (h : (mapGet m' k).isSome = true) : (mapGet m k).isSome = true := by
  rw [isSome_mapGet_iff_mem] at h ⊢
  exact (List.Sublist.map Prod.fst hsub).mem h

/-! ### Preservation of well-formedness and of the exclusivity invariant -/

theorem wf_trackClicks (cfg : SpamConfig) (s : SpamState) (ip : ClientKey) (now : Int)
    (hwf : WF s) : WF (trackClicks cfg s ip now).2 := by
  unfold trackClicks
  rcases ht : mapGet s.clickTracker ip with _ | data
  · exact ⟨keysNodup_mapSet _ _ _ hwf.1, hwf.2⟩
  · by_cases hwin : now - data.firstClick > cfg.timeWindow
    · simp only [if_pos hwin]
      exact ⟨keysNodup_mapSet _ _ _ hwf.1, hwf.2⟩
    · by_cases hesc : data.clicks + 1 > cfg.maxClicks
      · simp only [if_neg hwin, if_pos hesc]
        exact ⟨keysNodup_mapDelete _ _ hwf.1, keysNodup_mapSet _ _ _ hwf.2⟩
      · simp only [if_neg hwin, if_neg hesc]
        exact ⟨keysNodup_mapSet _ _ _ hwf.1, hwf.2⟩

theorem wf_spamProtection (cfg : SpamConfig) (s : SpamState) (ip : ClientKey) (now : Int)
    (hwf : WF s) : WF (spamProtection cfg s ip now).2 := by
  unfold spamProtection
  rcases hb : mapGet s.blockedIPs ip with _ | u
  · exact wf_trackClicks cfg s ip now hwf
  · by_cases hlt : now < u
    · simpa only [if_pos hlt] using hwf
    · simp only [if_neg hlt]
      exact wf_trackClicks cfg _ ip now ⟨hwf.1, keysNodup_mapDelete _ _ hwf.2⟩

theorem wf_applyOp (cfg : SpamConfig) (s : SpamState) (op : Op) (hwf : WF s) :
    WF (applyOp cfg s op) := by
  cases op with
  | check ip now => exact wf_spamProtection cfg s ip now hwf
  | adminBlockOp ip d now => exact ⟨hwf.1, keysNodup_mapSet _ _ _ hwf.2⟩
  | adminUnblockOp ip =>
    simp only [applyOp, adminUnblock]
    rcases mapGet s.blockedIPs ip with _ | u
    · exact hwf
    · exact ⟨hwf.1, keysNodup_mapDelete _ _ hwf.2⟩
  | clearAllOp => exact ⟨hwf.1, by simp [applyOp, clearBlocks, keysNodup]⟩
  | janitor now => exact ⟨keysNodup_filter _ _ hwf.1, keysNodup_filter _ _ hwf.2⟩

theorem excl_trackClicks (cfg : SpamConfig) (s : SpamState) (ip : ClientKey) (now : Int)
    (hwf : WF s) (hex : ExclusiveEntries s) (hb : mapGet s.blockedIPs ip = none) :
    ExclusiveEntries (trackClicks cfg s ip now).2 := by
  unfold trackClicks
  have hset : ∀ e : WindowEntry,
      ExclusiveEntries { s with clickTracker := mapSet s.clickTracker ip e } := by
    intro e ip'
    by_cases hip : ip' = ip
    · subst hip
      simp only [hb, Option.isSome_none]
      rintro ⟨-, h⟩
      exact Bool.noConfusion h
    · simp only [mapGet_mapSet_ne _ _ _ _ hip]
      exact hex ip'
  rcases ht : mapGet s.clickTracker ip with _ | data
  · exact hset _
  · by_cases hwin : now - data.firstClick > cfg.timeWindow
    · simp only [if_pos hwin]
      exact hset _
    · by_cases hesc : data.clicks + 1 > cfg.maxClicks
      · simp only [if_neg hwin, if_pos hesc]
        intro ip'
        by_cases hip : ip' = ip
        · subst hip
          simp only [mapGet_mapDelete_self _ _ hwf.1, Option.isSome_none]
          rintro ⟨h, -⟩
          exact Bool.noConfusion h
        · simp only [mapGet_mapDelete_ne _ _ _ hip, mapGet_mapSet_ne _ _ _ _ hip]
          exact hex ip'
      · simp only [if_neg hwin, if_neg hesc]
        exact hset _

theorem excl_spamProtection (cfg : SpamConfig) (s : SpamState) (ip : ClientKey) (now : Int)
    (hwf : WF s) (hex : ExclusiveEntries s) :
    ExclusiveEntries (spamProtection cfg s ip now).2 := by
  unfold spamProtection
  rcases hb : mapGet s.blockedIPs ip with _ | u
  · exact excl_trackClicks cfg s ip now hwf hex hb
  · by_cases hlt : now < u
    · simpa only [if_pos hlt] using hex
    · simp only [if_neg hlt]
      refine excl_trackClicks cfg _ ip now ⟨hwf.1, keysNodup_mapDelete _ _ hwf.2⟩ ?_
        (mapGet_mapDelete_self _ _ hwf.2)
      intro ip'
      by_cases hip : ip' = ip
      · subst hip
        simp only [mapGet_mapDelete_self _ _ hwf.2, Option.isSome_none]
        rintro ⟨-, h⟩
        exact Bool.noConfusion h
      · simp only [mapGet_mapDelete_ne _ _ _ hip]
        exact hex ip'

theorem excl_applyOp (cfg : SpamConfig) (s : SpamState) (op : Op) (hwf : WF s)
    (hex : ExclusiveEntries s) (hop : op.isAdminBlock = false) :
    ExclusiveEntries (applyOp cfg s op) := by
  cases op with
  | check ip now => exact excl_spamProtection cfg s ip now hwf hex
  | adminBlockOp ip d now => exact Bool.noConfusion hop
  | adminUnblockOp ip =>
    simp only [applyOp, adminUnblock]
    rcases mapGet s.blockedIPs ip with _ | u
    · exact hex
    · intro ip' h
      exact hex ip' ⟨h.1, isSome_mapGet_of_sublist (mapDelete_sublist _ _) ip' h.2⟩
  | clearAllOp =>
    intro ip' h
    simpa [applyOp, clearBlocks, mapGet] using h.2
  | janitor now =>
    intro ip' h
    exact hex ip' ⟨isSome_mapGet_of_sublist (List.filter_sublist _) ip' h.1,
      isSome_mapGet_of_sublist (List.filter_sublist _) ip' h.2⟩

theorem wf_excl_foldl (cfg : SpamConfig) (ops : List Op) (s : SpamState) (hwf : WF s)
    (hex : ExclusiveEntries s) (h : ∀ op ∈ ops, op.isAdminBlock = false) :
    WF (ops.foldl (applyOp cfg) s) ∧ ExclusiveEntries (ops.foldl (applyOp cfg) s) := by
  induction ops generalizing s with
  | nil => exact ⟨hwf, hex⟩
  | cons op rest ih =>
    simp only [List.foldl_cons]
    have hop := h op (List.mem_cons_self op rest)
    exact ih (applyOp cfg s op) (wf_applyOp cfg s op hwf)
      (excl_applyOp cfg s op hwf hex hop)
      (fun o ho => h o (List.mem_cons_of_mem op ho))

/-! ### Claim C3 -/

/-- Claim C3, counterexample: the state reached from the empty state by one
admission check for key "a" at time 0 followed by an admin manual block of
"a" (60 minutes, issued at time 0) holds BOTH a WindowEntry and a
BlockEntry for "a", because `POST /api/admin/block` sets `blockedIPs`
without deleting the key's `clickTracker` entry. -/
theorem C3_counterexample :
    (mapGet (exec SPAM_CONFIG [Op.check "a" 0, Op.adminBlockOp "a" 60 0]).clickTracker
      "a").isSome = true
    ∧ (mapGet (exec SPAM_CONFIG [Op.check "a" 0, Op.adminBlockOp "a" 60 0]).blockedIPs
      "a").isSome = true := by
  decide

/-- Claim C3 (amended): in every state reachable from the empty state by
admission checks (with their automatic escalation), admin unblocks,
clear-alls and janitor runs — that is, any operation sequence NOT
containing an admin manual block — each client key has at most one
WindowEntry or one BlockEntry, never both.  The admin manual block
endpoint can violate this (see the counterexample). -/
theorem C3_exclusive_unless_adminBlock (cfg : SpamConfig) (ops : List Op)
    (h : ∀ op ∈ ops, op.isAdminBlock = false) :
    ExclusiveEntries (exec cfg ops) := by
  refine (wf_excl_foldl cfg ops emptyState ⟨?_, ?_⟩ ?_ h).2
  · simp [emptyState, keysNodup]
  · simp [emptyState, keysNodup]
  · intro ip hcontra
    simp [emptyState, mapGet] at hcontra

/-- Claim C3, witness for the amended theorem at a concrete operation
sequence and key. -/
theorem C3_exclusive_unless_adminBlock_witness :
    ¬((mapGet (exec SPAM_CONFIG
        [Op.check "a" 0, Op.check "a" 10, Op.adminUnblockOp "a", Op.janitor 20,
          Op.clearAllOp]).clickTracker "a").isSome = true
      ∧ (mapGet (exec SPAM_CONFIG
        [Op.check "a" 0, Op.check "a" 10, Op.adminUnblockOp "a", Op.janitor 20,
          Op.clearAllOp]).blockedIPs "a").isSome = true) :=
  C3_exclusive_unless_adminBlock SPAM_CONFIG
    [Op.check "a" 0, Op.check "a" 10, Op.adminUnblockOp "a", Op.janitor 20, Op.clearAllOp]
    (by decide) "a"

/-! ### Claim C2 -/

/-- Core induction for C2: starting from a state whose WindowEntry for
`ip` is `⟨c, t0⟩` and which holds no BlockEntry for `ip`, a further batch
of requests inside the window, small enough that the count stays at or
below `maxClicks`, is fully allowed, ends with count `c + ts.length`, and
leaves `blockedIPs` untouched. -/
theorem runChecks_within_window (cfg : SpamConfig) (ip : ClientKey) (t0 : Int)
    (ts : List Int) : ∀ (s : SpamState) (c : Nat),
    mapGet s.clickTracker ip = some ⟨c, t0⟩ →
    mapGet s.blockedIPs ip = none →
    c + ts.length ≤ cfg.maxClicks →
    (∀ t ∈ ts, t - t0 ≤ cfg.timeWindow) →
    (∀ r ∈ (runChecks cfg s ip ts).1, r.allowed = true)
    ∧ mapGet (runChecks cfg s ip ts).2.clickTracker ip = some ⟨c + ts.length, t0⟩
    ∧ (runChecks cfg s ip ts).2.blockedIPs = s.blockedIPs := by
  induction ts with
  | nil =>
    intro s c ht hb _ _
    simpa [runChecks] using ht
  | cons t ts ih =>
    intro s c ht hb hlen hwin
    have hwin0 : ¬(t - t0 > cfg.timeWindow) :=
      not_lt.mpr (hwin t (List.mem_cons_self t ts))
    have hesc : ¬(c + 1 > cfg.maxClicks) := by
      simp only [List.length_cons] at hlen
      omega
    have hstep : spamProtection cfg s ip t =
        (CheckResult.next,
          { s with clickTracker := mapSet s.clickTracker ip ⟨c + 1, t0⟩ }) := by
      simp [spamProtection, hb, trackClicks, ht, hwin0, hesc]
    have hnext := ih { s with clickTracker := mapSet s.clickTracker ip ⟨c + 1, t0⟩ } (c + 1)
      (mapGet_mapSet_self _ _ _) hb
      (by simp only [List.length_cons] at hlen; omega)
      (fun t' ht' => hwin t' (List.mem_cons_of_mem t ht'))
    refine ⟨?_, ?_, ?_⟩
    · intro r hr
      simp only [runChecks, hstep, List.mem_cons] at hr
      rcases hr with hr | hr
      · subst hr; rfl
      · exact hnext.1 r hr
    · simp only [runChecks, hstep]
      have : c + (t :: ts).length = c + 1 + ts.length := by
        simp only [List.length_cons]; omega
      rw [this]
      exact hnext.2.1
    · simp only [runChecks, hstep]
      exact hnext.2.2

/-- Claim C2: starting from a state with neither a WindowEntry nor a
BlockEntry for the key, any sequence of at most `maxClicks` requests, all
within `timeWindow` of the first, is answered `allowed = true` at every
step, and no BlockEntry for the key is ever created. -/
theorem C2_under_threshold_all_allowed (cfg : SpamConfig) (s : SpamState) (ip : ClientKey)
    (t0 : Int) (rest : List Int)
    (htr : mapGet s.clickTracker ip = none)
    (hbl : mapGet s.blockedIPs ip = none)
    (hlen : (t0 :: rest).length ≤ cfg.maxClicks)
    (hwin : ∀ t ∈ rest, t - t0 ≤ cfg.timeWindow) :
    (∀ r ∈ (runChecks cfg s ip (t0 :: rest)).1, r.allowed = true)
    ∧ mapGet (runChecks cfg s ip (t0 :: rest)).2.blockedIPs ip = none := by
  have hstep : spamProtection cfg s ip t0 =
      (CheckResult.next,
        { s with clickTracker := mapSet s.clickTracker ip ⟨1, t0⟩ }) := by
    simp [spamProtection, hbl, trackClicks, htr]
  have hnext := runChecks_within_window cfg ip t0 rest
    { s with clickTracker := mapSet s.clickTracker ip ⟨1, t0⟩ } 1
    (mapGet_mapSet_self _ _ _) hbl
    (by simp only [List.length_cons] at hlen; omega) hwin
  refine ⟨?_, ?_⟩
  · intro r hr
    simp only [runChecks, hstep, List.mem_cons] at hr
    rcases hr with hr | hr
    · subst hr; rfl
    · exact hnext.1 r hr
  · simp only [runChecks, hstep]
    rw [hnext.2.2]
    exact hbl

/-- Claim C2, witness: three requests from a fresh key at times 0, 10000
and 20000 (all within the 60000 ms window, 3 ≤ 10 = maxClicks) are all
allowed and create no block. -/
theorem C2_under_threshold_all_allowed_witness :
    (∀ r ∈ (runChecks SPAM_CONFIG emptyState "a" [0, 10000, 20000]).1, r.allowed = true)
    ∧ mapGet (runChecks SPAM_CONFIG emptyState "a" [0, 10000, 20000]).2.blockedIPs
      "a" = none :=
  C2_under_threshold_all_allowed SPAM_CONFIG emptyState "a" 0 [10000, 20000]
    (by decide) (by decide) (by decide) (by decide)

/-! ### Claim C1 -/

/-- A reachable state in which key "a" has a WindowEntry at
`maxClicks = 10` inside the current window AND an active BlockEntry:
ten admission checks at time 0 followed by an admin manual block. -/
def c1State : SpamState :=
  exec SPAM_CONFIG (List.replicate 10 (Op.check "a" 0) ++ [Op.adminBlockOp "a" 60 0])

/-- Claim C1, counterexample: in the reachable state `c1State`, key "a"
has a WindowEntry whose count has reached `maxClicks` within the current
window (10 clicks, window started at 0, request at time 1), yet the next
request does NOT create a BlockEntry with
`unblockAt = now + blockDuration` (the pre-existing block is left at
3600000 ≠ 1 + 3600000) and does NOT remove the key's WindowEntry: the
blocked-IP branch answers first and leaves the state untouched. -/
theorem C1_counterexample :
    mapGet c1State.clickTracker "a" = some ⟨10, 0⟩
    ∧ (1 : Int) - 0 ≤ SPAM_CONFIG.timeWindow
    ∧ (spamProtection SPAM_CONFIG c1State "a" 1).1.allowed = false
    ∧ mapGet (spamProtection SPAM_CONFIG c1State "a" 1).2.clickTracker "a" = some ⟨10, 0⟩
    ∧ ¬ mapGet (spamProtection SPAM_CONFIG c1State "a" 1).2.blockedIPs "a"
        = some (1 + SPAM_CONFIG.blockDuration) := by
  decide

/-- Claim C1 (amended): for every client key with NO BlockEntry whose
WindowEntry count has reached `maxClicks` within the current window, the
next request within that same window returns `allowed = false`, creates a
BlockEntry with `unblockAt = now + blockDuration`, and removes the key's
WindowEntry.  (The "no BlockEntry" proviso is forced by the
counterexample: with an active BlockEntry the blocked-IP branch rejects
the request without escalating.) -/
theorem C1_escalation_on_threshold (cfg : SpamConfig) (s : SpamState) (ip : ClientKey)
    (now ws : Int)
    (hwfT : keysNodup s.clickTracker)
    (hb : mapGet s.blockedIPs ip = none)
    (ht : mapGet s.clickTracker ip = some ⟨cfg.maxClicks, ws⟩)
    (hwin : now - ws ≤ cfg.timeWindow) :
    (spamProtection cfg s ip now).1 = CheckResult.reject (now + cfg.blockDuration) 60
    ∧ (spamProtection cfg s ip now).1.allowed = false
    ∧ mapGet (spamProtection cfg s ip now).2.blockedIPs ip = some (now + cfg.blockDuration)
    ∧ mapGet (spamProtection cfg s ip now).2.clickTracker ip = none := by
  have hwin' : ¬(now - ws > cfg.timeWindow) := not_lt.mpr hwin
  have hesc : cfg.maxClicks + 1 > cfg.maxClicks := Nat.lt_succ_self _
  have hstep : spamProtection cfg s ip now =
      (CheckResult.reject (now + cfg.blockDuration) 60,
        { clickTracker := mapDelete s.clickTracker ip,
          blockedIPs := mapSet s.blockedIPs ip (now + cfg.blockDuration) }) := by
    simp [spamProtection, hb, trackClicks, ht, hwin', hesc]
  rw [hstep]
  exact ⟨rfl, rfl, mapGet_mapSet_self _ _ _, mapGet_mapDelete_self _ _ hwfT⟩

/-- Claim C1, witness: a key with 10 clicks since time 0 and no block is
escalated by a request at time 1. -/
theorem C1_escalation_on_threshold_witness :
    (spamProtection SPAM_CONFIG (SpamState.mk [("a", ⟨10, 0⟩)] []) "a" 1).1
      = CheckResult.reject (1 + SPAM_CONFIG.blockDuration) 60
    ∧ (spamProtection SPAM_CONFIG (SpamState.mk [("a", ⟨10, 0⟩)] []) "a" 1).1.allowed
      = false
    ∧ mapGet (spamProtection SPAM_CONFIG (SpamState.mk [("a", ⟨10, 0⟩)] []) "a"
        1).2.blockedIPs "a" = some (1 + SPAM_CONFIG.blockDuration)
    ∧ mapGet (spamProtection SPAM_CONFIG (SpamState.mk [("a", ⟨10, 0⟩)] []) "a"
        1).2.clickTracker "a" = none :=
  C1_escalation_on_threshold SPAM_CONFIG (SpamState.mk [("a", ⟨10, 0⟩)] []) "a" 1 0
    (by unfold keysNodup; decide) (by decide) (by decide) (by decide)

/-! ### Claim C4 -/

/-- A reachable state in which key "a" has both a WindowEntry
(10 clicks since time 0) and a BlockEntry expiring at 60000: ten
admission checks at time 0 followed by an admin manual block of 1 minute. -/
def c4State : SpamState :=
  exec SPAM_CONFIG (List.replicate 10 (Op.check "a" 0) ++ [Op.adminBlockOp "a" 1 0])

/-- Claim C4, counterexample: in the reachable state `c4State`, key "a"
has a BlockEntry with `unblockAt = 60000`; the admission check at
`now = 60000 ≥ unblockAt` does delete that BlockEntry, but the request
does NOT proceed with `allowed = true`: the key's surviving WindowEntry
(10 clicks, still inside the window since 60000 - 0 ≤ timeWindow)
immediately re-escalates it to a fresh block. -/
theorem C4_counterexample :
    mapGet c4State.blockedIPs "a" = some 60000
    ∧ (spamProtection SPAM_CONFIG c4State "a" 60000).1.allowed = false := by
  decide

/-- Claim C4 (amended): for every client key with a BlockEntry and NO
WindowEntry: an admission check at `now < unblockAt` rejects the request,
reporting the block end `unblockAt` (hence a remaining time of
`unblockAt - now`, reported rounded up in minutes), and leaves the whole
state — in particular the BlockEntry — unchanged; an admission check at
`now ≥ unblockAt` deletes the BlockEntry and lets the request through
with `allowed = true` (starting a fresh window).  (The "no WindowEntry"
proviso is forced by the counterexample.) -/
theorem C4_blocked_gate (cfg : SpamConfig) (s : SpamState) (ip : ClientKey) (u now : Int)
    (hwfB : keysNodup s.blockedIPs)
    (hb : mapGet s.blockedIPs ip = some u)
    (ht : mapGet s.clickTracker ip = none) :
    (now < u →
      spamProtection cfg s ip now = (CheckResult.reject u (ceilMinutes (u - now)), s))
    ∧ (u ≤ now →
      (spamProtection cfg s ip now).1.allowed = true
      ∧ mapGet (spamProtection cfg s ip now).2.blockedIPs ip = none
      ∧ mapGet (spamProtection cfg s ip now).2.clickTracker ip = some ⟨1, now⟩) := by
  constructor
  · intro hlt
    simp [spamProtection, hb, hlt]
  · intro hexp
    have hlt : ¬(now < u) := not_lt.mpr hexp
    have hstep : spamProtection cfg s ip now =
        (CheckResult.next,
          { clickTracker :=
              mapSet s.clickTracker ip ⟨1, now⟩,
            blockedIPs := mapDelete s.blockedIPs ip }) := by
      simp [spamProtection, hb, hlt, trackClicks, ht]
    rw [hstep]
    exact ⟨rfl, mapGet_mapDelete_self _ _ hwfB, mapGet_mapSet_self _ _ _⟩

/-- Claim C4, witness: a key blocked until 100 with no WindowEntry is
rejected at 40 with the state untouched, and admitted at 100 with the
block deleted. -/
theorem C4_blocked_gate_witness :
    spamProtection SPAM_CONFIG (SpamState.mk [] [("a", 100)]) "a" 40
      = (CheckResult.reject 100 (ceilMinutes (100 - 40)), SpamState.mk [] [("a", 100)])
    ∧ (spamProtection SPAM_CONFIG (SpamState.mk [] [("a", 100)]) "a" 100).1.allowed = true :=
  ⟨(C4_blocked_gate SPAM_CONFIG (SpamState.mk [] [("a", 100)]) "a" 100 40
      (by unfold keysNodup; decide) (by decide) (by decide)).1 (by decide),
    ((C4_blocked_gate SPAM_CONFIG (SpamState.mk [] [("a", 100)]) "a" 100 100
      (by unfold keysNodup; decide) (by decide) (by decide)).2 (by decide)).1⟩

/-! ### Claim C5 -/

/-- A reachable post-unblock state in which key "a" still has a
WindowEntry at 10 clicks: ten admission checks at time 0, an admin manual
block, then the admin unblock itself. -/
def c5State : SpamState :=
  exec SPAM_CONFIG (List.replicate 10 (Op.check "a" 0)
    ++ [Op.adminBlockOp "a" 60 0, Op.adminUnblockOp "a"])

/-- Claim C5, counterexample: `c5State` is the state immediately after
`unblock("a")` executed (the BlockEntry is gone), yet the immediately
following admission check at time 1 returns `allowed = false`: the key's
surviving WindowEntry (10 clicks since time 0) pushes the count past
`maxClicks` and re-escalates. -/
theorem C5_counterexample :
    mapGet c5State.blockedIPs "a" = none
    ∧ (spamProtection SPAM_CONFIG c5State "a" 1).1.allowed = false := by
  decide

/-- Claim C5 (amended): for every state in which the key has NO
WindowEntry — as is always the case when its block came from automatic
escalation, which deletes the WindowEntry — after `unblock(key)` executes
the immediately following admission check for that key returns
`allowed = true`, regardless of the deleted entry's `unblockAt` value.
(The "no WindowEntry" proviso is forced by the counterexample.) -/
theorem C5_unblock_restores_allowed (cfg : SpamConfig) (s : SpamState) (ip : ClientKey)
    (now : Int)
    (hwfB : keysNodup s.blockedIPs)
    (ht : mapGet s.clickTracker ip = none) :
    (spamProtection cfg (adminUnblock s ip).2 ip now).1.allowed = true := by
  have hb' : mapGet (adminUnblock s ip).2.blockedIPs ip = none := by
    unfold adminUnblock
    rcases hg : mapGet s.blockedIPs ip with _ | u
    · exact hg
    · exact mapGet_mapDelete_self _ _ hwfB
  have ht' : mapGet (adminUnblock s ip).2.clickTracker ip = none := by
    unfold adminUnblock
    rcases mapGet s.blockedIPs ip with _ | u
    · exact ht
    · exact ht
  simp [spamProtection, hb', trackClicks, ht', CheckResult.allowed]

/-- Claim C5, witness: unblocking a key blocked until 999999 and then
checking it at time 0 admits the request. -/
theorem C5_unblock_restores_allowed_witness :
    (spamProtection SPAM_CONFIG
      (adminUnblock (SpamState.mk [] [("a", 999999)]) "a").2 "a" 0).1.allowed = true :=
  C5_unblock_restores_allowed SPAM_CONFIG (SpamState.mk [] [("a", 999999)]) "a" 0
    (by unfold keysNodup; decide) (by decide)

/-! ### Claim C6 -/

/-- The state reached by eleven admission checks for key "a" at time 0:
the eleventh escalates, leaving a BlockEntry with `unblockAt = 3600000`
and no WindowEntry. -/
def c6State : SpamState :=
  exec SPAM_CONFIG (List.replicate 11 (Op.check "a" 0))

/-- Claim C6, counterexample: with "a" blocked until 3600000 in the
reachable state `c6State`, the checks at `t1 = 1 < t2 = 2` (both before
`unblockAt`) are both rejected, but the reported value —
`remainingMinutes = ceil((unblockAt - now) / 60000)` — is 60 both times:
it is NOT strictly smaller at `t2`.  (Only the exact remaining time
`unblockAt - now` shrinks; the code reports whole minutes, rounded up.) -/
theorem C6_counterexample :
    mapGet c6State.blockedIPs "a" = some 3600000
    ∧ (spamProtection SPAM_CONFIG c6State "a" 1).1 = CheckResult.reject 3600000 60
    ∧ (spamProtection SPAM_CONFIG c6State "a" 1).2 = c6State
    ∧ (spamProtection SPAM_CONFIG c6State "a" 2).1 = CheckResult.reject 3600000 60 := by
  decide

/-- Claim C6 (amended): for every blocked client key and admission-check
times `t1 < t2` both before `unblockAt`, both requests are rejected
(each reporting the block end `unblockAt`, so the exact remaining time
`unblockAt - now` is strictly smaller at `t2`), the first check leaves
the state unchanged, and the reported `remainingMinutes` value is
non-increasing — but, being rounded up to whole minutes, it is not
strictly decreasing (see the counterexample). -/
theorem C6_remaining_monotone (cfg : SpamConfig) (s : SpamState) (ip : ClientKey)
    (u t1 t2 : Int)
    (hb : mapGet s.blockedIPs ip = some u)
    (h12 : t1 < t2) (h2u : t2 < u) :
    spamProtection cfg s ip t1 = (CheckResult.reject u (ceilMinutes (u - t1)), s)
    ∧ spamProtection cfg s ip t2 = (CheckResult.reject u (ceilMinutes (u - t2)), s)
    ∧ u - t2 < u - t1
    ∧ ceilMinutes (u - t2) ≤ ceilMinutes (u - t1) := by
  have h1u : t1 < u := lt_trans h12 h2u
  refine ⟨by simp [spamProtection, hb, h1u], by simp [spamProtection, hb, h2u], ?_, ?_⟩
  · omega
  · exact Int.ediv_le_ediv (by omega) (by omega)

/-- Claim C6, witness: key blocked until 100000, checks at 1 and 2. -/
theorem C6_remaining_monotone_witness :
    spamProtection SPAM_CONFIG (SpamState.mk [] [("a", 100000)]) "a" 1
      = (CheckResult.reject 100000 (ceilMinutes (100000 - 1)), SpamState.mk [] [("a", 100000)])
    ∧ spamProtection SPAM_CONFIG (SpamState.mk [] [("a", 100000)]) "a" 2
      = (CheckResult.reject 100000 (ceilMinutes (100000 - 2)), SpamState.mk [] [("a", 100000)])
    ∧ (100000 : Int) - 2 < 100000 - 1
    ∧ ceilMinutes (100000 - 2) ≤ ceilMinutes (100000 - 1) :=
  C6_remaining_monotone SPAM_CONFIG (SpamState.mk [] [("a", 100000)]) "a" 100000 1 2
    (by decide) (by decide) (by decide)

/-! ### Claim C7 -/

/-- Claim C7: a janitor (`cleanupTracker`) run at time `now` keeps exactly
the WindowEntries with `now - windowStart ≤ timeWindow` (i.e. deletes
exactly the stale ones with `now - windowStart > timeWindow`) and exactly
the BlockEntries with `now < unblockAt` (i.e. deletes exactly the expired
ones with `unblockAt ≤ now`); every surviving entry is left unchanged
(same key, same value). -/
theorem C7_janitor_exact (cfg : SpamConfig) (s : SpamState) (now : Int) :
    (∀ (ip : ClientKey) (e : WindowEntry),
      (ip, e) ∈ (cleanupTracker cfg s now).clickTracker
        ↔ ((ip, e) ∈ s.clickTracker ∧ now - e.firstClick ≤ cfg.timeWindow))
    ∧ (∀ (ip : ClientKey) (u : Int),
      (ip, u) ∈ (cleanupTracker cfg s now).blockedIPs
        ↔ ((ip, u) ∈ s.blockedIPs ∧ now < u)) := by
  constructor
  · intro ip e
    simp [cleanupTracker, List.mem_filter, not_lt]
  · intro ip u
    simp [cleanupTracker, List.mem_filter, not_le]

/-- Claim C7, witness: in a state with one fresh and one stale
WindowEntry and one live and one expired BlockEntry, a janitor run at
time 100000 keeps exactly the fresh WindowEntry and the live BlockEntry. -/
theorem C7_janitor_exact_witness :
    (("a", WindowEntry.mk 3 90000) ∈ (cleanupTracker SPAM_CONFIG
        (SpamState.mk [("a", ⟨3, 90000⟩), ("b", ⟨7, 0⟩)] [("c", 200000), ("d", 100000)])
        100000).clickTracker
      ↔ ((("a", WindowEntry.mk 3 90000) ∈
          [("a", WindowEntry.mk 3 90000), ("b", WindowEntry.mk 7 0)])
        ∧ (100000 : Int) - 90000 ≤ SPAM_CONFIG.timeWindow))
    ∧ (("d", (100000 : Int)) ∈ (cleanupTracker SPAM_CONFIG
        (SpamState.mk [("a", ⟨3, 90000⟩), ("b", ⟨7, 0⟩)] [("c", 200000), ("d", 100000)])
        100000).blockedIPs
      ↔ ((("d", (100000 : Int)) ∈ [("c", (200000 : Int)), ("d", 100000)])
        ∧ (100000 : Int) < 100000)) :=
  ⟨(C7_janitor_exact SPAM_CONFIG
      (SpamState.mk [("a", ⟨3, 90000⟩), ("b", ⟨7, 0⟩)] [("c", 200000), ("d", 100000)])
      100000).1 "a" ⟨3, 90000⟩,
    (C7_janitor_exact SPAM_CONFIG
      (SpamState.mk [("a", ⟨3, 90000⟩), ("b", ⟨7, 0⟩)] [("c", 200000), ("d", 100000)])
      100000).2 "d" 100000⟩

/-! ### Claim C8 -/

/-- Claim C8: `clearBlocks` (the clear-all admin operation) returns the
number of BlockEntries removed (`blockedIPs.size`), leaves `blockedIPs`
empty — so a subsequent `listBlocked` returns the empty sequence — and
does not touch the click tracker. -/
theorem C8_clear_all_blocks (s : SpamState) (now : Int) :
    (clearBlocks s).1 = s.blockedIPs.length
    ∧ (clearBlocks s).2.blockedIPs = []
    ∧ listBlocked (clearBlocks s).2 now = []
    ∧ (clearBlocks s).2.clickTracker = s.clickTracker := by
  refine ⟨rfl, rfl, ?_, rfl⟩
  simp [listBlocked, clearBlocks, sortByUnblock]

/-- Claim C8, witness at a concrete two-entry state. -/
theorem C8_clear_all_blocks_witness :
    (clearBlocks (SpamState.mk [] [("a", 100), ("b", 200)])).1
      = (SpamState.mk [] [("a", 100), ("b", 200)]).blockedIPs.length
    ∧ (clearBlocks (SpamState.mk [] [("a", 100), ("b", 200)])).2.blockedIPs = []
    ∧ listBlocked (clearBlocks (SpamState.mk [] [("a", 100), ("b", 200)])).2 0 = []
    ∧ (clearBlocks (SpamState.mk [] [("a", 100), ("b", 200)])).2.clickTracker
      = (SpamState.mk [] [("a", 100), ("b", 200)]).clickTracker :=
  C8_clear_all_blocks (SpamState.mk [] [("a", 100), ("b", 200)]) 0

/-! ### Claim C9 -/

/-- Claim C9: `adminUnblock` reports success exactly when a BlockEntry
exists, afterwards the key has no BlockEntry, the click tracker and the
other keys' BlockEntries are untouched, and when no BlockEntry exists the
whole state is left unchanged (a "not found" outcome, not a crash — the
operation is a total function). -/
theorem C9_unblock_contract (s : SpamState) (ip : ClientKey)
    (hwfB : keysNodup s.blockedIPs) :
    (adminUnblock s ip).1 = (mapGet s.blockedIPs ip).isSome
    ∧ mapGet (adminUnblock s ip).2.blockedIPs ip = none
    ∧ (adminUnblock s ip).2.clickTracker = s.clickTracker
    ∧ (∀ k, k ≠ ip → mapGet (adminUnblock s ip).2.blockedIPs k = mapGet s.blockedIPs k)
    ∧ (mapGet s.blockedIPs ip = none → (adminUnblock s ip).2 = s) := by
  unfold adminUnblock
  rcases hg : mapGet s.blockedIPs ip with _ | u
  · exact ⟨rfl, hg, rfl, fun k _ => rfl, fun _ => rfl⟩
  · refine ⟨rfl, mapGet_mapDelete_self _ _ hwfB, rfl, ?_, ?_⟩
    · intro k hk
      exact mapGet_mapDelete_ne _ _ _ hk
    · intro hnone
      exact Option.noConfusion hnone

/-- Claim C9, witness: unblocking "a" in a state blocking "a" and "b"
succeeds, removes only "a", and keeps the tracker. -/
theorem C9_unblock_contract_witness :
    (adminUnblock (SpamState.mk [] [("a", 100), ("b", 200)]) "a").1
      = (mapGet (SpamState.mk [] [("a", 100), ("b", 200)]).blockedIPs "a").isSome
    ∧ mapGet (adminUnblock (SpamState.mk [] [("a", 100), ("b", 200)]) "a").2.blockedIPs
      "a" = none
    ∧ (adminUnblock (SpamState.mk [] [("a", 100), ("b", 200)]) "a").2.clickTracker
      = (SpamState.mk [] [("a", 100), ("b", 200)]).clickTracker :=
  ⟨(C9_unblock_contract (SpamState.mk [] [("a", 100), ("b", 200)]) "a"
      (by unfold keysNodup; decide)).1,
    (C9_unblock_contract (SpamState.mk [] [("a", 100), ("b", 200)]) "a"
      (by unfold keysNodup; decide)).2.1,
    (C9_unblock_contract (SpamState.mk [] [("a", 100), ("b", 200)]) "a"
      (by unfold keysNodup; decide)).2.2.1⟩

/-! ### Claim C10 -/

/-- A reachable state in which key "a" has an expired-but-unremoved
BlockEntry (`unblockAt = 60000`) and also a surviving WindowEntry at 10
clicks: ten admission checks at time 0 then an admin block of 1 minute. -/
def c10State : SpamState :=
  exec SPAM_CONFIG (List.replicate 10 (Op.check "a" 0) ++ [Op.adminBlockOp "a" 1 0])

/-- Claim C10, counterexample: in the reachable state `c10State` at
`now = 60000`, the status endpoint does report `isBlocked = true` with
the past timestamp `blockedUntil = 60000 ≤ now` — that part of the claim
holds — but the claim's contrast clause fails: the next admission check
returns `allowed = false`, not `allowed = true`, because the key's
surviving WindowEntry re-escalates as soon as the expired block is
lazily deleted. -/
theorem C10_counterexample :
    (apiStatus c10State "a").isBlocked = true
    ∧ (apiStatus c10State "a").blockedUntil = some 60000
    ∧ (60000 : Int) ≤ 60000
    ∧ (spamProtection SPAM_CONFIG c10State "a" 60000).1.allowed = false := by
  decide

/-- Claim C10 (amended): the status endpoint decides `isBlocked` solely by
BlockEntry presence, without checking expiry: for every client key whose
BlockEntry has `unblockAt ≤ now` but has not yet been removed, the status
query reports `isBlocked = true` with the past timestamp `unblockAt` —
even though, provided the key has no WindowEntry, the next admission check
would delete the BlockEntry and return `allowed = true`.  (The "no
WindowEntry" proviso is forced by the counterexample.) -/
theorem C10_status_ignores_expiry (cfg : SpamConfig) (s : SpamState) (ip : ClientKey)
    (u now : Int)
    (hwfB : keysNodup s.blockedIPs)
    (hb : mapGet s.blockedIPs ip = some u)
    (hexp : u ≤ now)
    (ht : mapGet s.clickTracker ip = none) :
    (apiStatus s ip).isBlocked = true
    ∧ (apiStatus s ip).blockedUntil = some u
    ∧ (spamProtection cfg s ip now).1.allowed = true
    ∧ mapGet (spamProtection cfg s ip now).2.blockedIPs ip = none := by
  have hlt : ¬(now < u) := not_lt.mpr hexp
  have hstep : spamProtection cfg s ip now =
      (CheckResult.next,
        { clickTracker := mapSet s.clickTracker ip ⟨1, now⟩,
          blockedIPs := mapDelete s.blockedIPs ip }) := by
    simp [spamProtection, hb, hlt, trackClicks, ht]
  refine ⟨?_, ?_, ?_, ?_⟩
  · simp [apiStatus, hb]
  · simp [apiStatus, hb]
  · rw [hstep]; rfl
  · rw [hstep]
    exact mapGet_mapDelete_self _ _ hwfB

/-- Claim C10, witness: a key whose block expired at 5, queried and
checked at time 10. -/
theorem C10_status_ignores_expiry_witness :
    (apiStatus (SpamState.mk [] [("a", 5)]) "a").isBlocked = true
    ∧ (apiStatus (SpamState.mk [] [("a", 5)]) "a").blockedUntil = some 5
    ∧ (spamProtection SPAM_CONFIG (SpamState.mk [] [("a", 5)]) "a" 10).1.allowed = true
    ∧ mapGet (spamProtection SPAM_CONFIG (SpamState.mk [] [("a", 5)]) "a"
        10).2.blockedIPs "a" = none :=
  C10_status_ignores_expiry SPAM_CONFIG (SpamState.mk [] [("a", 5)]) "a" 5 10
    (by unfold keysNodup; decide) (by decide) (by decide) (by decide)

end YTGrab
